import Mathlib

/-!
Verification development for the GeminiDev2024 mission-generation server.

The definitions below are a shallow embedding of the two source files
`gemini_proact_server/database/entities/Mission.py` and
`gemini_proact_server/GeminiClient.py`.  Python values that are dynamically
typed in the source (a field that can hold either an enum member or its plain
string value, a list that can hold either child entities or their ids) are
embedded as explicit sum types; Python exceptions are embedded as `Except`
error values; `datetime.now()` is modelled as a fixed instant since no claim
depends on wall-clock time.  Code of the repository that is not available
(the `database.Mission` module and `database.DatabaseEntity`) is modelled
from the spec and marked as such in its doc comment.
-/

set_option autoImplicit false

/-! ## Entity model: `database/entities/Mission.py` -/

/-- `MissionStatus` enum from `Mission.py`. -/
inductive MissionStatus where
  | notStarted
  | inProgress
  | done
  | expired
deriving DecidableEq, Repr

/-- The `.value` of a `MissionStatus` member. -/
def MissionStatus.value : MissionStatus → String
  | .notStarted => "not started"
  | .inProgress => "in progress"
  | .done => "done"
  | .expired => "expired"

/-- `MissionStatus._value2member_map_` lookup. -/
def MissionStatus.fromValue (s : String) : Option MissionStatus :=
  if s = "not started" then some .notStarted
  else if s = "in progress" then some .inProgress
  else if s = "done" then some .done
  else if s = "expired" then some .expired
  else none

/-- `MissionPeriodType` enum from `Mission.py` (WEEKLY = 'weekly', ONGOING = 'ongoing'). -/
inductive MissionPeriodType where
  | weekly
  | ongoing
deriving DecidableEq, Repr

/-- The `.value` of a `MissionPeriodType` member. -/
def MissionPeriodType.value : MissionPeriodType → String
  | .weekly => "weekly"
  | .ongoing => "ongoing"

/-- `MissionPeriodType._value2member_map_` lookup. -/
def MissionPeriodType.fromValue (s : String) : Option MissionPeriodType :=
  if s = "weekly" then some .weekly
  else if s = "ongoing" then some .ongoing
  else none

/-- `MissionLevel` enum from `Mission.py` (PROJECT, MISSION, STEP). -/
inductive MissionLevel where
  | project
  | mission
  | step
deriving DecidableEq, Repr

/-- The `.value` of a `MissionLevel` member. -/
def MissionLevel.value : MissionLevel → String
  | .project => "project"
  | .mission => "mission"
  | .step => "step"

/-- `MissionLevel._value2member_map_` lookup. -/
def MissionLevel.fromValue (s : String) : Option MissionLevel :=
  if s = "project" then some .project
  else if s = "mission" then some .mission
  else if s = "step" then some .step
  else none

/-- The `regenerationLeft` field is declared `int` but `OngoingProject` defaults it
to `math.inf`, so its values are embedded as an integer or the infinite sentinel. -/
inductive RegenVal where
  | int (n : Int)
  | inf
deriving DecidableEq, Repr

/-- `DefaultValues.WEEKLY_MISSION_REGENERATION_MAX = 3`. -/
def WEEKLY_MISSION_REGENERATION_MAX : RegenVal := .int 3

/-- `DefaultValues.ONGOING_PROJECT_REGENERATION_MAX = math.inf`. -/
def ONGOING_PROJECT_REGENERATION_MAX : RegenVal := .inf

/-- The dynamically typed `status` attribute: either an enum member or a plain
string (the constructor accepts both and `__attrs_post_init__` does not convert
`status` strings back to the enum). -/
inductive StatusField where
  | enum (s : MissionStatus)
  | strv (v : String)
deriving DecidableEq, Repr

/-- The dynamically typed `level` attribute (enum member, or string before
`__attrs_post_init__` converts it). -/
inductive LevelField where
  | enum (l : MissionLevel)
  | strv (v : String)
deriving DecidableEq, Repr

/-- The dynamically typed `type` attribute (enum member, string before
conversion, or `None`). -/
inductive TypeField where
  | enum (t : MissionPeriodType)
  | strv (v : String)
  | null
deriving DecidableEq, Repr

/-- Python exceptions raised by the entity-model code. -/
inductive EntErr where
  /-- `KeyError` from `_value2member_map_[...]` in `__attrs_post_init__`. -/
  | keyError (msg : String)
  /-- `TypeError` from a constructor receiving an unexpected keyword argument. -/
  | typeError (msg : String)
  /-- `ValueError`: raised by `create_mission_entity_from_dict` for unknown
  `(level, type)` combinations — the spec's `InvalidVariant`. -/
  | valueError (msg : String)
  /-- `AttributeError` from calling `.value` / `.id` on a plain string. -/
  | attributeError (msg : String)
deriving DecidableEq, Repr

/-- The scalar attributes of `BaseMission`, grouped so that the recursive
`steps` field can live in a nested inductive.  The `id` field comes from
`DatabaseEntity`, which is not under `src/`.  Modelled from the spec:
`id` is an opaque identifier assigned on persistence, absent (None) before.
`createdTimestamp` (`datetime`) is modelled as an abstract instant (`Nat`). -/
structure MissionScalars where
  id : Option String
  title : String
  level : LevelField
  type : TypeField
  description : String
  status : StatusField
  deadline : Option String
  styleId : Option String
  ecoPoints : Int
  CO2InKg : Int
  eventId : Option String
  regenerationLeft : RegenVal
  createdTimestamp : Option Nat
deriving DecidableEq, Repr

/-- `BaseMission` from `Mission.py`.  The `steps` list is dynamically typed in
Python: it holds child `BaseMission` objects (`Sum.inl`) or, after
`from_dict` of a persisted mapping, plain child-id entries (`Sum.inr`). -/
inductive BaseMission where
  | mk (scalars : MissionScalars) (steps : List (BaseMission ⊕ Option String))

/-- The scalar attributes of a `BaseMission`. -/
def BaseMission.scalars : BaseMission → MissionScalars
  | .mk sc _ => sc

/-- The `steps` attribute. -/
def BaseMission.steps : BaseMission → List (BaseMission ⊕ Option String)
  | .mk _ st => st

def BaseMission.id (m : BaseMission) : Option String := m.scalars.id
def BaseMission.title (m : BaseMission) : String := m.scalars.title
def BaseMission.level (m : BaseMission) : LevelField := m.scalars.level
def BaseMission.type (m : BaseMission) : TypeField := m.scalars.type
def BaseMission.description (m : BaseMission) : String := m.scalars.description
def BaseMission.status (m : BaseMission) : StatusField := m.scalars.status
def BaseMission.deadline (m : BaseMission) : Option String := m.scalars.deadline
def BaseMission.styleId (m : BaseMission) : Option String := m.scalars.styleId
def BaseMission.ecoPoints (m : BaseMission) : Int := m.scalars.ecoPoints
def BaseMission.CO2InKg (m : BaseMission) : Int := m.scalars.CO2InKg
def BaseMission.eventId (m : BaseMission) : Option String := m.scalars.eventId
def BaseMission.regenerationLeft (m : BaseMission) : RegenVal := m.scalars.regenerationLeft
def BaseMission.createdTimestamp (m : BaseMission) : Option Nat := m.scalars.createdTimestamp

/-- Second half of `__attrs_post_init__`: the `level` conversion from a plain
string to the enum member (`KeyError` on an unrecognized string). -/
def postInitLevel (m : BaseMission) : Except EntErr BaseMission :=
  match m.level with
  | .strv s =>
    match MissionLevel.fromValue s with
    | none => .error (.keyError s)
    | some l => .ok (.mk { m.scalars with level := .enum l } m.steps)
  | _ => .ok m

/-- `__attrs_post_init__`: converts the `type` attribute, then the `level`
attribute, from a plain string to the enum member; a string outside the
enum's `_value2member_map_` raises `KeyError`.  `status` is not converted. -/
def postInit (m : BaseMission) : Except EntErr BaseMission :=
  match m.type with
  | .strv s =>
    match MissionPeriodType.fromValue s with
    | none => .error (.keyError s)
    | some t => postInitLevel (.mk { m.scalars with type := .enum t } m.steps)
  | _ => postInitLevel m

/-- A mapping handed to `create_mission_entity_from_dict`.  The embedding fixes
the keys present in the mapping to `level`, `type` (whose value may be JSON
null) and the mandatory `title` — the shape the generation pipeline produces.
`regenerationLeft` is never a key, so class defaults always apply. -/
structure CreateDict where
  level : String
  type : Option String
  title : String
deriving DecidableEq, Repr

/-- Turn the `type` value of a mapping into the constructor argument. -/
def typeFieldOfOpt : Option String → TypeField
  | none => .null
  | some s => .strv s

/-- `WeeklyProject(**d)`: attrs keyword construction with the class defaults
`type=WEEKLY`, `level=PROJECT`, `regenerationLeft=-1` ("weekly project can't be
regenerated"); the keys of `d` override `level`, `type` and `title`, then
`__attrs_post_init__` runs. -/
def WeeklyProject.fromDict (d : CreateDict) : Except EntErr BaseMission :=
  postInit (.mk
    { id := none, title := d.title, level := .strv d.level,
      type := typeFieldOfOpt d.type, description := "",
      status := .enum .notStarted, deadline := none, styleId := none,
      ecoPoints := 0, CO2InKg := 0, eventId := none,
      regenerationLeft := .int (-1), createdTimestamp := some 0 } [])

/-- `OngoingProject(**d)`: the class mistakenly subclasses `BaseException`
rather than `BaseMission`, so its only attrs fields are `type`, `level` and
`regenerationLeft` (default `math.inf`).  Any mapping carrying `title` — every
`CreateDict` — makes `OngoingProject(**d)` raise
`TypeError: unexpected keyword argument`, and no mission node is constructed. -/
def OngoingProject.fromDict (_d : CreateDict) : Except EntErr BaseMission :=
  .error (.typeError "OngoingProject.__init__() got an unexpected keyword argument: title")

/-- `WeeklyMission(**d)`: class defaults `type=WEEKLY`, `level=MISSION`,
`regenerationLeft=DefaultValues.WEEKLY_MISSION_REGENERATION_MAX` (= 3). -/
def WeeklyMission.fromDict (d : CreateDict) : Except EntErr BaseMission :=
  postInit (.mk
    { id := none, title := d.title, level := .strv d.level,
      type := typeFieldOfOpt d.type, description := "",
      status := .enum .notStarted, deadline := none, styleId := none,
      ecoPoints := 0, CO2InKg := 0, eventId := none,
      regenerationLeft := WEEKLY_MISSION_REGENERATION_MAX, createdTimestamp := some 0 } [])

/-- `OngoingMission(**d)`: class defaults `type=ONGOING`, `level=MISSION`,
`regenerationLeft=-1` ("Ongoing missions can't be regenerated"). -/
def OngoingMission.fromDict (d : CreateDict) : Except EntErr BaseMission :=
  postInit (.mk
    { id := none, title := d.title, level := .strv d.level,
      type := typeFieldOfOpt d.type, description := "",
      status := .enum .notStarted, deadline := none, styleId := none,
      ecoPoints := 0, CO2InKg := 0, eventId := none,
      regenerationLeft := .int (-1), createdTimestamp := some 0 } [])

/-- `Step(**d)`: class defaults `level=STEP`, `regenerationLeft=-1` ("steps
can't be regenerated"); `type` has no class override (BaseMission default
None), but the mapping's `type` key overrides it. -/
def Step.fromDict (d : CreateDict) : Except EntErr BaseMission :=
  postInit (.mk
    { id := none, title := d.title, level := .strv d.level,
      type := typeFieldOfOpt d.type, description := "",
      status := .enum .notStarted, deadline := none, styleId := none,
      ecoPoints := 0, CO2InKg := 0, eventId := none,
      regenerationLeft := .int (-1), createdTimestamp := some 0 } [])

/-- `create_mission_entity_from_dict` from `Mission.py`: dispatches on
`d['level']` and `d['type']` to a concrete variant class and constructs it
with the mapping's entries as keyword arguments. -/
def create_mission_entity_from_dict (d : CreateDict) : Except EntErr BaseMission :=
  if d.level = MissionLevel.project.value then
    match d.type with
    | some s =>
      if s = MissionPeriodType.weekly.value then WeeklyProject.fromDict d
      else if s = MissionPeriodType.ongoing.value then OngoingProject.fromDict d
      else .error (.valueError "'type' is expected to be in ['weekly', 'ongoing']")
    | none => .error (.valueError "'type' is expected to be in ['weekly', 'ongoing']")
  else if d.level = MissionLevel.mission.value then
    match d.type with
    | some s =>
      if s = MissionPeriodType.weekly.value then WeeklyMission.fromDict d
      else if s = MissionPeriodType.ongoing.value then OngoingMission.fromDict d
      else .error (.valueError "'type' is expected to be in ['weekly', 'ongoing']")
    | none => .error (.valueError "'type' is expected to be in ['weekly', 'ongoing']")
  else if d.level = MissionLevel.step.value then
    Step.fromDict d
  else
    .error (.valueError "'level' is expected to be in ['project', 'mission', 'step']")

/-- The mapping produced by `BaseMission.to_dict`: every attrs field except
`id`, with `steps` flattened to child ids and `status`/`type`/`level`
flattened to plain values. -/
structure MissionDict where
  title : String
  level : String
  type : Option String
  description : String
  steps : List (Option String)
  status : String
  deadline : Option String
  styleId : Option String
  ecoPoints : Int
  CO2InKg : Int
  eventId : Option String
  regenerationLeft : RegenVal
  createdTimestamp : Option Nat
deriving DecidableEq, Repr

/-- `s.id` for an entry of the `steps` list: child entities yield their id;
a plain id string has no `.id` attribute (`AttributeError`). -/
def stepEntryId : BaseMission ⊕ Option String → Except EntErr (Option String)
  | .inl c => .ok c.id
  | .inr _ => .error (.attributeError "step entry has no attribute id")

/-- `BaseMission.to_dict`: `attrs.asdict(self)` then overwrite `steps` with
`[s.id for s in self.steps]`, `status` with `self.status.value`, `type` with
`self.type.value` or None, `level` with `self.level.value`, and delete `id`.
Calling `.value` on a field currently holding a plain string raises
`AttributeError`. -/
def BaseMission.to_dict (m : BaseMission) : Except EntErr MissionDict := do
  let stepIds ← m.steps.mapM stepEntryId
  let statusV ← match m.status with
    | .enum s => .ok s.value
    | .strv _ => .error (.attributeError "str has no attribute value")
  let typeV ← match m.type with
    | .null => .ok none
    | .enum t => .ok (some t.value)
    | .strv _ => .error (.attributeError "str has no attribute value")
  let levelV ← match m.level with
    | .enum l => .ok l.value
    | .strv _ => .error (.attributeError "str has no attribute value")
  .ok { title := m.title, level := levelV, type := typeV,
        description := m.description, steps := stepIds, status := statusV,
        deadline := m.deadline, styleId := m.styleId, ecoPoints := m.ecoPoints,
        CO2InKg := m.CO2InKg, eventId := m.eventId,
        regenerationLeft := m.regenerationLeft,
        createdTimestamp := m.createdTimestamp }

/-- `BaseMission.from_dict(data) = cls(**data)`: keyword construction from the
persisted mapping (`id` is absent, so the `DatabaseEntity` default applies),
followed by `__attrs_post_init__`.  `status` arrives as a plain string and is
left as one; `steps` arrives as a list of child ids. -/
def BaseMission.from_dict (d : MissionDict) : Except EntErr BaseMission :=
  postInit (.mk
    { id := none, title := d.title, level := .strv d.level,
      type := typeFieldOfOpt d.type, description := d.description,
      status := .strv d.status, deadline := d.deadline, styleId := d.styleId,
      ecoPoints := d.ecoPoints, CO2InKg := d.CO2InKg, eventId := d.eventId,
      regenerationLeft := d.regenerationLeft,
      createdTimestamp := d.createdTimestamp } (d.steps.map .inr))

/-- `BaseMission.add_step`: appends the child to `self.steps` and adds the
child's `ecoPoints`/`CO2InKg` into the parent's accumulators.  The
`isinstance(step, BaseMission)` guard always holds in the typed embedding.
The result is the parent's post-state; the method never assigns to the child. -/
def BaseMission.add_step (m step : BaseMission) : BaseMission :=
  .mk { m.scalars with
          ecoPoints := m.scalars.ecoPoints + step.ecoPoints,
          CO2InKg := m.scalars.CO2InKg + step.CO2InKg }
      (m.steps ++ [.inl step])

/-- The child's post-state after `add_step`: the method only reads the child,
so it is returned unchanged.  Kept as a definition so the frame claim about
the child can be stated against the embedding. -/
def BaseMission.add_step_child_post (_m step : BaseMission) : BaseMission := step

/-- `BaseMission.add_steps`: `for step in steps: self.add_step(step)`. -/
def BaseMission.add_steps (m : BaseMission) (steps : List BaseMission) : BaseMission :=
  steps.foldl BaseMission.add_step m

/-! ## Client: `GeminiClient.py` — tool registry and conversation driver -/

/-- A dynamically typed Python value as produced by a tool callable (the
claims only need strings and non-strings; an integer stands for the latter). -/
inductive PyVal where
  | str (s : String)
  | intv (n : Int)
deriving DecidableEq, Repr

/-- `isinstance(result, str)` on a tool result. -/
def PyVal.isStr : PyVal → Bool
  | .str _ => true
  | .intv _ => false

/-- A registered tool callable: keyword arguments to result. -/
def ToolFn : Type := List (String × PyVal) → PyVal

/-- `self.tools_dict`: the name-to-callable mapping (dict assignment in
`add_tool_to_toolbox` is last-write-wins; lookups here model `dict[name]`). -/
def ToolsDict : Type := List (String × ToolFn)

/-- Python exceptions raised by the client code. -/
inductive ClientErr where
  /-- `KeyError` from `self.tools_dict[tool_name]` — the spec's `UnknownTool`. -/
  | keyError (name : String)
  /-- `RuntimeError` (depth bound in `_submit_prompt`, missing search client). -/
  | runtimeError (msg : String)
  /-- `google.api_core.exceptions.InvalidArgument` re-raised from the backend. -/
  | invalidArgument (msg : String)
  /-- `ValueError` (non-string search result) — the spec's `ToolResultTypeError`. -/
  | valueError (msg : String)
deriving Repr

/-- `GeminiClient._execute_tool`: looks the tool up in `tools_dict`
(`KeyError` when absent) and calls it with the request's arguments.  The
method returns the callable's result as is — it performs no check that the
result is a string. -/
def execute_tool (tools_dict : ToolsDict) (name : String) (args : List (String × PyVal)) :
    Except ClientErr PyVal :=
  match tools_dict.lookup name with
  | none => .error (.keyError name)
  | some f => .ok (f args)

/-- `GeminiClient.internet_search_tool`: raises `RuntimeError` when no search
client was initialized (no Tavily key), otherwise queries the search
collaborator (modelled as the `quick_search` oracle) with the fixed
"advanced" depth and raises `ValueError` when the collaborator's result is
not a string. -/
def internet_search_tool (hasSearchClient : Bool) (quick_search : String → PyVal)
    (query : String) : Except ClientErr String :=
  if hasSearchClient = false then
    .error (.runtimeError "Search client was not initialized")
  else
    match quick_search query with
    | .str s => .ok s
    | r => .error (.valueError ("Expect search result to be of type str, got " ++ reprStr r))

/-- One part of a backend response or of a conversation message: plain text,
a tool-call request (`part.function_call`), or a synthetic
`function_response` part carrying a tool result. -/
inductive GPart where
  | text (s : String)
  | fnCall (name : String) (args : List (String × PyVal))
  | fnResp (name : String) (result : PyVal)
deriving Repr

/-- Truthiness of `part.function_call`. -/
def GPart.isFnCall : GPart → Bool
  | .fnCall _ _ => true
  | _ => false

/-- One entry of the `messages` history: `{"role": ..., "parts": [...]}`. -/
structure GMessage where
  role : String
  parts : List GPart
deriving Repr

/-- A backend response (`response.parts`). -/
structure GResponse where
  parts : List GPart
deriving Repr

/-- `response.text`: the concatenated text parts of the final response. -/
def GResponse.text (r : GResponse) : String :=
  String.join (r.parts.filterMap fun p => match p with | .text s => some s | _ => none)

/-- Failure of a backend submission (invalid credential / argument). -/
inductive BackendErr where
  | invalidArgument (msg : String)
deriving Repr

/-- The AI-backend collaborator: submission index and full history to
response.  The index lets theorems count submissions. -/
def Backend : Type := Nat → List GMessage → Except BackendErr GResponse

/-- Observable events of the conversation driver, used to state the ordering
guarantee: a tool execution (`_execute_tool` call) and the append of its
`function_response` message to the history. -/
inductive DriverEvent where
  | toolExec (name : String) (args : List (String × PyVal)) (output : PyVal)
  | toolResultAppended (name : String) (output : PyVal)
deriving Repr

/-- The `for part in response.parts` loop of `_submit_prompt`: walks the parts
in order; for each tool-call part it clears `answer_available`, executes the
tool, appends the original model response to the history and then appends a
user message carrying the tool's result, before looking at the next part.
Returns the updated history, the `answer_available` flag and the emitted
events; a `KeyError` from `_execute_tool` propagates. -/
def processParts (tools_dict : ToolsDict) (respParts : List GPart) :
    List GPart → List GMessage → Bool → List DriverEvent →
    Except ClientErr (List GMessage × Bool × List DriverEvent)
  | [], msgs, avail, tr => .ok (msgs, avail, tr)
  | p :: rest, msgs, avail, tr =>
    match p with
    | .fnCall name args =>
      match execute_tool tools_dict name args with
      | .error e => .error e
      | .ok out =>
        processParts tools_dict respParts rest
          (msgs ++ [⟨"model", respParts⟩, ⟨"user", [.fnResp name out]⟩])
          false
          (tr ++ [.toolExec name args out, .toolResultAppended name out])
    | _ => processParts tools_dict respParts rest msgs avail tr

/-- `max_depth = 5` in `_submit_prompt`. -/
def max_depth : Nat := 5

/-- Outcome of `_submit_prompt`: final result, number of submissions actually
sent to the backend, and the emitted driver events. -/
structure SubmitOutcome where
  result : Except ClientErr String
  submissions : Nat
  trace : List DriverEvent
deriving Repr

/-- The `while not answer_available` loop of `_submit_prompt`: increments
`cur_depth`, raises `RuntimeError` ("Max prompt submission depth of 5
reached." — the spec's `ConversationDepthExceeded`) once `cur_depth`
exceeds `max_depth` before submitting again, otherwise submits the history,
processes tool-call parts and loops until a response free of tool calls is
reached, whose `.text` is returned. -/
def submitLoop (backend : Backend) (tools_dict : ToolsDict) :
    List GMessage → Nat → Nat → List DriverEvent → SubmitOutcome :=
  fun messages curDepth subs tr =>
    if h : curDepth + 1 > max_depth then
      ⟨.error (.runtimeError "Max prompt submission depth of 5 reached."), subs, tr⟩
    else
      match backend subs messages with
      | .error (.invalidArgument m) => ⟨.error (.invalidArgument m), subs + 1, tr⟩
      | .ok resp =>
        match processParts tools_dict resp.parts resp.parts messages true tr with
        | .error e => ⟨.error e, subs + 1, tr⟩
        | .ok (msgs2, avail, tr2) =>
          if avail then ⟨.ok resp.text, subs + 1, tr2⟩
          else submitLoop backend tools_dict msgs2 (curDepth + 1) (subs + 1) tr2
  termination_by messages curDepth _ _ => max_depth + 1 - curDepth
  decreasing_by simp [max_depth] at h ⊢; omega

/-- `GeminiClient._submit_prompt`: seeds the history with the user prompt and
runs the submission loop from depth 0. -/
def submit_prompt (backend : Backend) (tools_dict : ToolsDict) (prompt : String) : SubmitOutcome :=
  submitLoop backend tools_dict [⟨"user", [.text prompt]⟩] 0 0 []

/-! ## Client: response parsing (`_parse_missions` and `json.loads`) -/

/-- Entity-conversion failures raised inside the decoding hook.  Modelled from
the spec: `fromMapping` fails with `UnknownEnumValue` when a plain string does
not match an enumeration member, and `attachChild` fails with
`InvalidChildType` when a child is not a mission node. -/
inductive EntityErr where
  | unknownEnumValue (v : String)
  | typeErr (fieldName : String)
  | invalidChildType
deriving DecidableEq, Repr

mutual
/-- A decoded Python value as produced by `json.loads` with
`object_hook=Mission.from_dict`: ordinary JSON values, except that every
completed object literal has been replaced by the hook's result (a
`Mission`); `dict` is the trivial-hook (plain `json.loads`) object value.
Non-integral numbers are kept as their source literal, since no claim
depends on float semantics. -/
inductive PyObj where
  | str (s : String)
  | intVal (n : Int)
  | floatTok (raw : String)
  | boolVal (b : Bool)
  | null
  | arr (items : List PyObj)
  | dict (fields : List (String × PyObj))
  | mission (m : GMission)

/-- Modelled from the spec: the `Mission` entity of the `database.Mission`
module imported by `GeminiClient.py`, which is not under `src/`.  Per spec
§3/§4.1 a mission node carries a title, description, level, optional period
type, status and child steps; the fields the pipeline's claims do not touch
(accumulators, deadline, ids) are omitted. -/
inductive GMission where
  | mk (title : String) (description : String) (level : MissionLevel)
       (type : Option MissionPeriodType) (status : MissionStatus)
       (steps : List GMission)
end

/-- Python-dict lookup over the decoded key/value pairs (last write wins on
duplicate keys, as in a dict built from parsed members). -/
def pyDictGet (fields : List (String × PyObj)) (k : String) : Option PyObj :=
  match fields with
  | [] => none
  | (k2, v) :: rest => match pyDictGet rest k with
    | some v2 => some v2
    | none => if k2 = k then some v else none

/-- Modelled from the spec: conversion of one entry of a mission's `steps`
array.  Per §4.5 the nested `steps` arrays are converted to Step-level nodes
(generation-time steps are plain strings) and attached via `attachChild`,
which fails with `InvalidChildType` for anything that is not a mission node
or a string. -/
def stepOfPyObj : PyObj → Except EntityErr GMission
  | .str s => .ok (.mk s "" .step none .notStarted [])
  | .mission m => .ok m
  | _ => .error .invalidChildType

/-- Modelled from the spec: `Mission.from_dict` of the missing
`database.Mission` module, used as the `object_hook` of `json.loads` in
`_parse_missions`.  Per §4.1 (`fromMapping`) it reads the mapping at Mission
level, converts plain `status`/`level`/`periodType` strings back to the
enumerations — failing with `UnknownEnumValue` when a string matches no
member — and converts the nested `steps` entries; unrecognized keys are
ignored. -/
def missionFromDict (fields : List (String × PyObj)) : Except EntityErr GMission := do
  let title ← match pyDictGet fields "title" with
    | none => .ok ""
    | some (.str s) => .ok s
    | some _ => .error (.typeErr "title")
  let description ← match pyDictGet fields "description" with
    | none => .ok ""
    | some (.str s) => .ok s
    | some _ => .error (.typeErr "description")
  let status ← match pyDictGet fields "status" with
    | none => .ok MissionStatus.notStarted
    | some (.str s) =>
      match MissionStatus.fromValue s with
      | some st => .ok st
      | none => .error (.unknownEnumValue s)
    | some _ => .error (.typeErr "status")
  let level ← match pyDictGet fields "level" with
    | none => .ok MissionLevel.mission
    | some (.str s) =>
      match MissionLevel.fromValue s with
      | some l => .ok l
      | none => .error (.unknownEnumValue s)
    | some _ => .error (.typeErr "level")
  let ptype ← match pyDictGet fields "type" with
    | none => .ok (Option.none (α := MissionPeriodType))
    | some .null => .ok none
    | some (.str s) =>
      match MissionPeriodType.fromValue s with
      | some t => .ok (some t)
      | none => .error (.unknownEnumValue s)
    | some _ => .error (.typeErr "type")
  let steps ← match pyDictGet fields "steps" with
    | none => .ok []
    | some (.arr items) => items.mapM stepOfPyObj
    | some _ => .error (.typeErr "steps")
  .ok (.mk title description level ptype status steps)

/-- Errors of `_parse_missions`: a `json.decoder.JSONDecodeError` (the spec's
`MalformedResponse`) or an exception raised inside the `object_hook` during
decoding. -/
inductive PErr where
  | syn (msg : String)
  | hook (e : EntityErr)
deriving DecidableEq, Repr

/-- An `object_hook` for the decoder: completed object fields to value. -/
def Hook : Type := List (String × PyObj) → Except EntityErr PyObj

/-- The hook used by `_parse_missions`: `Mission.from_dict`. -/
def missionHook : Hook := fun fields => (missionFromDict fields).map .mission

/-- The trivial hook: keep the object as a plain dict (plain `json.loads`,
used to define syntactic validity). -/
def trivHook : Hook := fun fields => .ok (.dict fields)

/-- Apply the object hook at a completed `}` (CPython invokes the hook as
soon as each object literal closes, before the rest of the document is
scanned). -/
def applyHook (h : Hook) (fields : List (String × PyObj)) (rest : List Char) :
    Except PErr (PyObj × List Char) :=
  match h fields with
  | .ok v => .ok (v, rest)
  | .error e => .error (.hook e)

/-- JSON whitespace. -/
def isJsonWs (c : Char) : Bool :=
  c = ' ' || c = '\t' || c = '\n' || c = '\r'

/-- Skip JSON whitespace. -/
def skipWs (s : List Char) : List Char := s.dropWhile isJsonWs

/-- Hex digit value. -/
def hexVal (c : Char) : Option Nat :=
  if '0' ≤ c ∧ c ≤ '9' then some (c.toNat - 48)
  else if 'a' ≤ c ∧ c ≤ 'f' then some (c.toNat - 87)
  else if 'A' ≤ c ∧ c ≤ 'F' then some (c.toNat - 55)
  else none

/-- Body of a JSON string literal after the opening quote, with the standard
escapes (`\uXXXX` is decoded as a single code point; surrogate pairing and
strict-mode control-character rejection are not modelled — no claim uses
them). -/
def parseStringBody (acc : List Char) : List Char → Except PErr (String × List Char)
  | [] => .error (.syn "Unterminated string")
  | '"' :: rest => .ok (⟨acc.reverse⟩, rest)
  | '\\' :: rest =>
    match rest with
    | [] => .error (.syn "Unterminated string")
    | e :: r2 =>
      if e = '"' then parseStringBody ('"' :: acc) r2
      else if e = '\\' then parseStringBody ('\\' :: acc) r2
      else if e = '/' then parseStringBody ('/' :: acc) r2
      else if e = 'b' then parseStringBody ('\x08' :: acc) r2
      else if e = 'f' then parseStringBody ('\x0c' :: acc) r2
      else if e = 'n' then parseStringBody ('\n' :: acc) r2
      else if e = 'r' then parseStringBody ('\r' :: acc) r2
      else if e = 't' then parseStringBody ('\t' :: acc) r2
      else if e = 'u' then
        match r2 with
        | a :: b :: c :: d :: r3 =>
          match hexVal a, hexVal b, hexVal c, hexVal d with
          | some ha, some hb, some hc, some hd =>
            parseStringBody (Char.ofNat (((ha * 16 + hb) * 16 + hc) * 16 + hd) :: acc) r3
          | _, _, _, _ => .error (.syn "Invalid hex escape")
        | _ => .error (.syn "Invalid hex escape")
      else .error (.syn "Invalid escape")
  | c :: rest => parseStringBody (c :: acc) rest

/-- Longest digit prefix. -/
def digitSpan : List Char → List Char × List Char
  | [] => ([], [])
  | c :: rest =>
    if c.isDigit then
      let (d, r) := digitSpan rest
      (c :: d, r)
    else ([], c :: rest)

/-- Numeric value of a digit string. -/
def digitsToNat (ds : List Char) : Nat :=
  ds.foldl (fun n c => n * 10 + (c.toNat - 48)) 0

/-- The optional fraction part `.digits` of a JSON number; consumed only when
complete, as in CPython's number regex. -/
def parseFrac : List Char → List Char × List Char
  | '.' :: r =>
    let (ds, r2) := digitSpan r
    if ds.isEmpty then ([], '.' :: r) else ('.' :: ds, r2)
  | s => ([], s)

/-- The optional exponent part `[eE][+-]?digits`; consumed only when
complete. -/
def parseExpPart : List Char → List Char × List Char
  | [] => ([], [])
  | c :: r =>
    if c = 'e' || c = 'E' then
      match r with
      | [] => ([], [c])
      | sgn :: r2 =>
        if sgn = '+' || sgn = '-' then
          let (ds, r3) := digitSpan r2
          if ds.isEmpty then ([], c :: sgn :: r2) else (c :: sgn :: ds, r3)
        else
          let (ds, r3) := digitSpan (sgn :: r2)
          if ds.isEmpty then ([], c :: sgn :: r2) else (c :: ds, r3)
    else ([], c :: r)

/-- A JSON number starting at `s` (first char is `-` or a digit), following
CPython's grammar `-?(0|[1-9]\d*)(\.\d+)?([eE][+-]?\d+)?`, plus the
`Infinity` constants accepted after `-`.  Integral literals decode to ints,
others keep their literal text. -/
def parseNumber (s : List Char) : Except PErr (PyObj × List Char) :=
  match s with
  | '-' :: 'I' :: r =>
    if ['n', 'f', 'i', 'n', 'i', 't', 'y'].isPrefixOf r then
      .ok (.floatTok "-Infinity", r.drop 7)
    else .error (.syn "Expecting value")
  | _ =>
    let (neg, s1) := match s with
      | '-' :: r => (true, r)
      | r => (false, r)
    match s1 with
    | [] => .error (.syn "Expecting value")
    | c :: rest =>
      if c.isDigit then
        let (intDs, r2) := if c = '0' then ([c], rest) else digitSpan (c :: rest)
        let (fracDs, r3) := parseFrac r2
        let (expDs, r4) := parseExpPart r3
        if fracDs.isEmpty ∧ expDs.isEmpty then
          .ok (.intVal (if neg then -(digitsToNat intDs : Int) else (digitsToNat intDs : Int)), r2)
        else
          .ok (.floatTok ⟨(if neg then ['-'] else []) ++ intDs ++ fracDs ++ expDs⟩, r4)
      else .error (.syn "Expecting value")

/-- Literal constant helper (`true`, `false`, `null`, `NaN`, `Infinity`). -/
def expectLit (lit : List Char) (s : List Char) (v : PyObj) : Except PErr (PyObj × List Char) :=
  if lit.isPrefixOf s then .ok (v, s.drop lit.length) else .error (.syn "Expecting value")

mutual
/-- One JSON value, fuel-bounded (`jsonFuel` below is always sufficient):
mirrors CPython's scanner, invoking the object hook at each completed object
literal. -/
def parseVal (h : Hook) : Nat → List Char → Except PErr (PyObj × List Char)
  | 0, _ => .error (.syn "max recursion depth exceeded")
  | fuel + 1, s =>
    match skipWs s with
    | [] => .error (.syn "Expecting value")
    | c :: rest =>
      if c = '"' then
        match parseStringBody [] rest with
        | .error e => .error e
        | .ok (str, r2) => .ok (.str str, r2)
      else if c = '{' then
        match skipWs rest with
        | '}' :: r2 => applyHook h [] r2
        | r2 => parseMembers h fuel [] r2
      else if c = '[' then
        match skipWs rest with
        | ']' :: r2 => .ok (.arr [], r2)
        | r2 => parseElems h fuel [] r2
      else if c = 't' then expectLit ['r', 'u', 'e'] rest (.boolVal true)
      else if c = 'f' then expectLit ['a', 'l', 's', 'e'] rest (.boolVal false)
      else if c = 'n' then expectLit ['u', 'l', 'l'] rest .null
      else if c = 'N' then expectLit ['a', 'N'] rest (.floatTok "NaN")
      else if c = 'I' then expectLit ['n', 'f', 'i', 'n', 'i', 't', 'y'] rest (.floatTok "Infinity")
      else if c = '-' || c.isDigit then parseNumber (c :: rest)
      else .error (.syn "Expecting value")

/-- The members of an object literal after `{` (first member onward): parses
`"key": value` pairs separated by commas and applies the hook at `}`. -/
def parseMembers (h : Hook) : Nat → List (String × PyObj) → List Char →
    Except PErr (PyObj × List Char)
  | 0, _, _ => .error (.syn "max recursion depth exceeded")
  | fuel + 1, acc, s =>
    match skipWs s with
    | '"' :: rest =>
      match parseStringBody [] rest with
      | .error e => .error e
      | .ok (key, r2) =>
        match skipWs r2 with
        | ':' :: r3 =>
          match parseVal h fuel r3 with
          | .error e => .error e
          | .ok (v, r4) =>
            match skipWs r4 with
            | ',' :: r5 => parseMembers h fuel (acc ++ [(key, v)]) r5
            | '}' :: r5 => applyHook h (acc ++ [(key, v)]) r5
            | _ => .error (.syn "Expecting comma delimiter")
        | _ => .error (.syn "Expecting colon delimiter")
    | _ => .error (.syn "Expecting property name enclosed in double quotes")

/-- The elements of an array literal after `[` (first element onward). -/
def parseElems (h : Hook) : Nat → List PyObj → List Char →
    Except PErr (PyObj × List Char)
  | 0, _, _ => .error (.syn "max recursion depth exceeded")
  | fuel + 1, acc, s =>
    match parseVal h fuel s with
    | .error e => .error e
    | .ok (v, r) =>
      match skipWs r with
      | ',' :: r2 => parseElems h fuel (acc ++ [v]) r2
      | ']' :: r2 => .ok (.arr (acc ++ [v]), r2)
      | _ => .error (.syn "Expecting comma delimiter or close bracket")
end

/-- Fuel that is always sufficient for `parseVal` (each recursive call both
consumes fuel and follows consumed input; four units per character is a
generous upper bound). -/
def jsonFuel (l : List Char) : Nat := 4 * l.length + 8

/-- `json.loads(text, object_hook=h)`: decode one document, then require
only whitespace to remain ("Extra data" otherwise). -/
def jsonLoadsWith (h : Hook) (l : List Char) : Except PErr PyObj :=
  match parseVal h (jsonFuel l) l with
  | .error e => .error e
  | .ok (v, rest) => if skipWs rest = [] then .ok v else .error (.syn "Extra data")

/-- Plain `json.loads` (no hook): defines syntactic validity of a document. -/
def pureLoads (l : List Char) : Except PErr PyObj := jsonLoadsWith trivHook l

/-- `json.loads(text, object_hook=Mission.from_dict)`. -/
def missionLoads (l : List Char) : Except PErr PyObj := jsonLoadsWith missionHook l

/-- Python's `pat in s` substring test. -/
def occursIn (pat : List Char) : List Char → Bool
  | [] => pat.isEmpty
  | c :: rest => pat.isPrefixOf (c :: rest) || occursIn pat rest

/-- Python's `s.replace(pat, '')`: remove every occurrence of `pat`,
scanning left to right over non-overlapping matches.  Fuel-bounded for
structural recursion; `s.length` fuel is always sufficient since every step
consumes at least one character of a non-empty pattern. -/
def replaceFuel (pat : List Char) : Nat → List Char → List Char
  | _, [] => []
  | 0, s => s
  | fuel + 1, c :: rest =>
    if pat.isPrefixOf (c :: rest) then replaceFuel pat fuel ((c :: rest).drop pat.length)
    else c :: replaceFuel pat fuel rest

/-- `s.replace(pat, '')` with sufficient fuel. -/
def pyReplace (pat s : List Char) : List Char := replaceFuel pat s.length s

/-- The leading fenced-code-block marker the backend sometimes adds. -/
def fenceJson : List Char := ['`', '`', '`', 'j', 's', 'o', 'n']

/-- A bare triple-backtick fence. -/
def tick3 : List Char := ['`', '`', '`']

/-- `GeminiClient._parse_missions` on the characters of the response text:
when the text contains the marker, strip it with
`.replace('```json', '').replace('```', '')`, then decode with
`json.loads(..., object_hook=Mission.from_dict)`. -/
def parseMissionsL (l : List Char) : Except PErr PyObj :=
  let l2 := if occursIn fenceJson l then pyReplace tick3 (pyReplace fenceJson l) else l
  missionLoads l2

/-- `GeminiClient._parse_missions` on a string. -/
def parseMissions (s : String) : Except PErr PyObj := parseMissionsL s.toList

/-! ## Client: `get_new_missions_for_user` (generation orchestrator) -/

/-- Failures of `get_new_missions_for_user` (beyond caught parse noise). -/
inductive GenErr where
  /-- an exception from `Mission.from_dict` inside `_parse_missions` that is
  not a `json.decoder.JSONDecodeError` — not caught by the retry loop. -/
  | parseEntityError (e : EntityErr)
  /-- the failure surfaced when every attempt was exhausted: `missions` was
  never assigned, so `for mission in missions:` raises `UnboundLocalError` —
  the code's realization of the spec's `GenerationExhausted`. -/
  | generationExhausted
  /-- `TypeError`: the decoded value is not iterable (only reachable when a
  non-iterable document parses successfully). -/
  | notIterable
deriving Repr

/-- Iterating a decoded Python value with `for mission in missions`:
lists yield elements, strings yield characters, dicts yield keys; other
values raise `TypeError`. -/
def pyElems : PyObj → Except GenErr (List PyObj)
  | .arr xs => .ok xs
  | .str s => .ok (s.toList.map fun c => .str ⟨[c]⟩)
  | .dict fields => .ok (fields.map fun kv => .str kv.1)
  | _ => .error .notIterable

/-- The `while not valid_missions_generated and attempt < attempt_max` loop:
`remaining` counts the iterations the bound still allows (initially
`attempt_max`), `attempt` the attempts made so far.  Each iteration
increments `attempt`, obtains the backend text for this attempt (the
`genStr` oracle folds the collaborator pipeline prompt → `_submit_prompt`)
and tries `_parse_missions`; only `json.decoder.JSONDecodeError` is caught
and retried, any other exception propagates.  Returns the parsed value (or
`none` when the bound ran out) and the number of attempts made. -/
def genLoop (genStr : Nat → String) :
    Nat → Nat → Except EntityErr (Option PyObj) × Nat
  | 0, attempt => (.ok none, attempt)
  | remaining + 1, attempt =>
    match parseMissions (genStr (attempt + 1)) with
    | .ok m => (.ok (some m), attempt + 1)
    | .error (.syn _) => genLoop genStr remaining (attempt + 1)
    | .error (.hook e) => (.error e, attempt + 1)

/-- Outcome of `get_new_missions_for_user`: the returned value or propagated
exception, the missions handed to `fb_client.add_mission_to_db`, and the
number of generation attempts made. -/
structure GenOutcome where
  result : Except GenErr PyObj
  persisted : List PyObj
  attempts : Nat

/-- `GeminiClient.get_new_missions_for_user`: the user-profile fetch and the
period-specific prompt phrasing only shape the prompt, which the `genStr`
oracle (attempt index → backend text) absorbs, so the `mission_type` branch
collapses; the `ValueError` branch for a foreign enum member is unreachable
in the typed embedding.  After the retry loop the code iterates `missions`
and persists each entry; when no attempt succeeded the variable was never
assigned and the iteration raises `UnboundLocalError` before anything is
persisted. -/
def get_new_missions_for_user (genStr : Nat → String)
    (_mission_type : MissionPeriodType) (attempt_max : Nat) : GenOutcome :=
  match genLoop genStr attempt_max 0 with
  | (.error e, n) => ⟨.error (.parseEntityError e), [], n⟩
  | (.ok none, n) => ⟨.error .generationExhausted, [], n⟩
  | (.ok (some missions), n) =>
    match pyElems missions with
    | .error e => ⟨.error e, [], n⟩
    | .ok elems => ⟨.ok missions, elems, n⟩

/-! ## Concrete instances used by the theorems below -/

/-- The id of a `steps` entry: a child's id, or the reference itself. -/
def stepRefId : BaseMission ⊕ Option String → Option String
  | .inl c => c.id
  | .inr i => i

/-- A concrete persisted child node (a Step with an assigned id). -/
def c2child : BaseMission :=
  .mk { id := some "s1", title := "child", level := .enum .step, type := .null,
        description := "", status := .enum .notStarted, deadline := none,
        styleId := none, ecoPoints := 2, CO2InKg := 3, eventId := none,
        regenerationLeft := .int (-1), createdTimestamp := some 7 } []

/-- A concrete mission node whose children all have assigned ids. -/
def c2node : BaseMission :=
  .mk { id := some "m1", title := "node", level := .enum .mission, type := .enum .weekly,
        description := "desc", status := .enum .notStarted, deadline := some "d",
        styleId := some "sty", ecoPoints := 5, CO2InKg := 6, eventId := some "ev",
        regenerationLeft := .int 3, createdTimestamp := some 9 } [.inl c2child]

/-- A concrete parent node for the accumulation claims. -/
def parentNode : BaseMission :=
  .mk { id := none, title := "parent", level := .enum .project, type := .enum .weekly,
        description := "", status := .enum .notStarted, deadline := none,
        styleId := none, ecoPoints := 100, CO2InKg := 200, eventId := none,
        regenerationLeft := .int (-1), createdTimestamp := some 0 } []

/-- A concrete child with nonzero accumulators. -/
def stepA : BaseMission :=
  .mk { id := none, title := "A", level := .enum .mission, type := .enum .weekly,
        description := "", status := .enum .notStarted, deadline := none,
        styleId := none, ecoPoints := 10, CO2InKg := 20, eventId := none,
        regenerationLeft := .int 3, createdTimestamp := some 0 } []

/-- A second concrete child with different accumulators. -/
def stepB : BaseMission :=
  .mk { id := none, title := "B", level := .enum .mission, type := .enum .weekly,
        description := "", status := .enum .notStarted, deadline := none,
        styleId := none, ecoPoints := 5, CO2InKg := 15, eventId := none,
        regenerationLeft := .int 3, createdTimestamp := some 0 } []

/-- A backend that requests a tool call in every response. -/
def alwaysToolBackend : Backend := fun _ _ => .ok ⟨[.fnCall "internet_search_tool" []]⟩

/-- A registry holding one tool that returns a string. -/
def oneTool : ToolsDict := [("internet_search_tool", fun _ => .str "search result")]

/-- A backend whose response has no tool-call part. -/
def textBackend : Backend := fun _ _ => .ok ⟨[.text "hello ", .text "world"]⟩

/-- A generation oracle whose text never parses. -/
def badGen : Nat → String := fun _ => "not json"

/-- Whether a parse outcome is the decoder's own `JSONDecodeError` (the
spec's `MalformedResponse`), as opposed to success or an exception raised
inside the object hook. -/
def isMalformedResponse : Except PErr PyObj → Bool
  | .error (.syn _) => true
  | _ => false

/-- Spec-side expected trace for the ordering guarantee: for each tool-call
part of a response, in the order the parts appear, its execution immediately
followed by the append of its result (empty tail once an unregistered name
would fault). -/
def callTrace (tools_dict : ToolsDict) : List GPart → List DriverEvent
  | [] => []
  | .fnCall name args :: rest =>
    match tools_dict.lookup name with
    | some f => .toolExec name args (f args) :: .toolResultAppended name (f args) ::
        callTrace tools_dict rest
    | none => []
  | .text _ :: rest => callTrace tools_dict rest
  | .fnResp _ _ :: rest => callTrace tools_dict rest

/-! ## Helper lemmas -/

theorem missionLevel_fromValue_value (l : MissionLevel) :
    MissionLevel.fromValue l.value = some l := by
  cases l <;> rfl

theorem missionPeriodType_fromValue_value (t : MissionPeriodType) :
    MissionPeriodType.fromValue t.value = some t := by
  cases t <;> rfl

theorem mapM_loop_stepEntryId (l : List (BaseMission ⊕ Option String))
    (h : ∀ e ∈ l, ∃ c i, e = Sum.inl c ∧ c.id = some i)
    (acc : List (Option String)) :
    List.mapM.loop stepEntryId l acc = Except.ok (acc.reverse ++ l.map stepRefId) := by
  induction l generalizing acc with
  | nil => simp [List.mapM.loop, pure, Except.pure]
  | cons e rest ih =>
    obtain ⟨c, i, he, _⟩ := h e (List.mem_cons_self e rest)
    subst he
    have hrest := ih fun x hx => h x (List.mem_cons_of_mem _ hx)
    simp [List.mapM.loop, stepEntryId, bind, Except.bind, hrest, stepRefId]

theorem mapM_stepEntryId_of_inl (l : List (BaseMission ⊕ Option String))
    (h : ∀ e ∈ l, ∃ c i, e = Sum.inl c ∧ c.id = some i) :
    l.mapM stepEntryId = Except.ok (l.map stepRefId) := by
  simpa [List.mapM] using mapM_loop_stepEntryId l h []

theorem add_steps_ecoPoints (l : List BaseMission) (p : BaseMission) :
    (p.add_steps l).ecoPoints = p.ecoPoints + (l.map BaseMission.ecoPoints).sum := by
  induction l generalizing p with
  | nil => simp [BaseMission.add_steps]
  | cons a rest ih =>
    have := ih (p.add_step a)
    simp [BaseMission.add_steps, List.foldl_cons] at this ⊢
    rw [this]
    simp [BaseMission.add_step, BaseMission.ecoPoints, BaseMission.scalars]
    ring

theorem add_steps_CO2InKg (l : List BaseMission) (p : BaseMission) :
    (p.add_steps l).CO2InKg = p.CO2InKg + (l.map BaseMission.CO2InKg).sum := by
  induction l generalizing p with
  | nil => simp [BaseMission.add_steps]
  | cons a rest ih =>
    have := ih (p.add_step a)
    simp [BaseMission.add_steps, List.foldl_cons] at this ⊢
    rw [this]
    simp [BaseMission.add_step, BaseMission.CO2InKg, BaseMission.scalars]
    ring

/-! ## Claim C9 -/

/-- C9: attaching a finite collection of children through `add_step` /
`add_steps` in any order yields the same final `ecoPoints` and `CO2InKg` on
the parent, namely the parent's initial value plus the sum over the attached
children. -/
theorem c9_add_steps_order_invariant (p : BaseMission) (l1 l2 : List BaseMission)
    (hperm : l1.Perm l2) :
    (p.add_steps l1).ecoPoints = p.ecoPoints + (l1.map BaseMission.ecoPoints).sum ∧
    (p.add_steps l1).CO2InKg = p.CO2InKg + (l1.map BaseMission.CO2InKg).sum ∧
    (p.add_steps l1).ecoPoints = (p.add_steps l2).ecoPoints ∧
    (p.add_steps l1).CO2InKg = (p.add_steps l2).CO2InKg := by
  refine ⟨add_steps_ecoPoints l1 p, add_steps_CO2InKg l1 p, ?_, ?_⟩
  · rw [add_steps_ecoPoints l1 p, add_steps_ecoPoints l2 p,
      (hperm.map BaseMission.ecoPoints).sum_eq]
  · rw [add_steps_CO2InKg l1 p, add_steps_CO2InKg l2 p,
      (hperm.map BaseMission.CO2InKg).sum_eq]

/-- C9 witness: two concrete children attached in both orders. -/
theorem c9_witness :
    (parentNode.add_steps [stepA, stepB]).ecoPoints =
      parentNode.ecoPoints + ([stepA, stepB].map BaseMission.ecoPoints).sum ∧
    (parentNode.add_steps [stepA, stepB]).CO2InKg =
      parentNode.CO2InKg + ([stepA, stepB].map BaseMission.CO2InKg).sum ∧
    (parentNode.add_steps [stepA, stepB]).ecoPoints =
      (parentNode.add_steps [stepB, stepA]).ecoPoints ∧
    (parentNode.add_steps [stepA, stepB]).CO2InKg =
      (parentNode.add_steps [stepB, stepA]).CO2InKg :=
  c9_add_steps_order_invariant parentNode [stepA, stepB] [stepB, stepA]
    (List.Perm.swap stepB stepA [])

/-! ## Claim C10 -/

/-- C10: a successful `add_step` modifies only the parent's `steps`,
`ecoPoints` and `CO2InKg` (appending the child and adding its accumulators);
every other field of the parent is unchanged, and the child itself is not
modified (the method never assigns to it). -/
theorem c10_add_step_frame (p c : BaseMission) :
    (p.add_step c).id = p.id ∧
    (p.add_step c).title = p.title ∧
    (p.add_step c).description = p.description ∧
    (p.add_step c).level = p.level ∧
    (p.add_step c).type = p.type ∧
    (p.add_step c).status = p.status ∧
    (p.add_step c).deadline = p.deadline ∧
    (p.add_step c).styleId = p.styleId ∧
    (p.add_step c).eventId = p.eventId ∧
    (p.add_step c).regenerationLeft = p.regenerationLeft ∧
    (p.add_step c).createdTimestamp = p.createdTimestamp ∧
    (p.add_step c).steps = p.steps ++ [Sum.inl c] ∧
    (p.add_step c).ecoPoints = p.ecoPoints + c.ecoPoints ∧
    (p.add_step c).CO2InKg = p.CO2InKg + c.CO2InKg ∧
    BaseMission.add_step_child_post p c = c := by
  cases p with
  | mk sc st =>
    refine ⟨rfl, rfl, rfl, rfl, rfl, rfl, rfl, rfl, rfl, rfl, rfl, rfl, rfl, rfl, rfl⟩

/-! ## Claim C1 -/

/-- C1 counterexample: for the mapping `{'level': 'project', 'type':
'weekly', 'title': 'Week 3'}` the constructed Weekly Project has default
`regenerationLeft = -1`, not the documented 0: the claim's stated default for
the Weekly Project variant does not hold on the code. -/
theorem c1_counterexample :
    (create_mission_entity_from_dict ⟨"project", some "weekly", "Week 3"⟩).map
      BaseMission.regenerationLeft = Except.ok (RegenVal.int (-1)) ∧
    RegenVal.int (-1) ≠ RegenVal.int 0 := by
  exact ⟨rfl, by decide⟩

/-- C1 (amended): `create_mission_entity_from_dict` dispatches on `(level,
type)`.  Weekly Project defaults `regenerationLeft` to `-1` (the same
not-regenerable sentinel as Ongoing Mission and Step, not 0); the Ongoing
Project dispatch never constructs a node — `OngoingProject` subclasses
`BaseException`, so the keyword construction fails with a `TypeError`
(its class default would have been the infinite sentinel); Weekly Mission
defaults to 3; Ongoing Mission and Step default to `-1`; a `(project|mission,
unknown type)` or unknown-level mapping fails with the `ValueError` the spec
calls `InvalidVariant`; a `(step, unknown non-null type)` mapping instead
fails with a `KeyError` from `__attrs_post_init__`, not `InvalidVariant`. -/
theorem c1_create_defaults_amended (d : CreateDict) :
    (d.level = "project" → d.type = some "weekly" →
      ∃ m, create_mission_entity_from_dict d = .ok m ∧
        m.regenerationLeft = .int (-1) ∧ m.level = .enum .project ∧ m.type = .enum .weekly) ∧
    (d.level = "project" → d.type = some "ongoing" →
      create_mission_entity_from_dict d =
        .error (.typeError "OngoingProject.__init__() got an unexpected keyword argument: title")) ∧
    (d.level = "mission" → d.type = some "weekly" →
      ∃ m, create_mission_entity_from_dict d = .ok m ∧
        m.regenerationLeft = .int 3 ∧ m.level = .enum .mission ∧ m.type = .enum .weekly) ∧
    (d.level = "mission" → d.type = some "ongoing" →
      ∃ m, create_mission_entity_from_dict d = .ok m ∧
        m.regenerationLeft = .int (-1) ∧ m.level = .enum .mission ∧ m.type = .enum .ongoing) ∧
    (d.level = "step" → d.type = none →
      ∃ m, create_mission_entity_from_dict d = .ok m ∧
        m.regenerationLeft = .int (-1) ∧ m.level = .enum .step ∧ m.type = .null) ∧
    ((d.level = "project" ∨ d.level = "mission") →
      d.type ≠ some "weekly" → d.type ≠ some "ongoing" →
      create_mission_entity_from_dict d =
        .error (.valueError "'type' is expected to be in ['weekly', 'ongoing']")) ∧
    (d.level ≠ "project" → d.level ≠ "mission" → d.level ≠ "step" →
      create_mission_entity_from_dict d =
        .error (.valueError "'level' is expected to be in ['project', 'mission', 'step']")) ∧
    (∀ s, d.level = "step" → d.type = some s → s ≠ "weekly" → s ≠ "ongoing" →
      create_mission_entity_from_dict d = .error (.keyError s)) := by
  obtain ⟨lv, ty, ti⟩ := d
  refine ⟨?_, ?_, ?_, ?_, ?_, ?_, ?_, ?_⟩
  · rintro rfl rfl
    exact ⟨_, rfl, rfl, rfl, rfl⟩
  · rintro rfl rfl
    rfl
  · rintro rfl rfl
    exact ⟨_, rfl, rfl, rfl, rfl⟩
  · rintro rfl rfl
    exact ⟨_, rfl, rfl, rfl, rfl⟩
  · rintro rfl rfl
    exact ⟨_, rfl, rfl, rfl, rfl⟩
  · rintro (rfl | rfl) hw ho <;>
      · cases ty with
        | none => rfl
        | some s =>
          have hw2 : ¬ s = "weekly" := by simpa using hw
          have ho2 : ¬ s = "ongoing" := by simpa using ho
          simp [create_mission_entity_from_dict, MissionLevel.value,
            MissionPeriodType.value, hw2, ho2]
  · intro h1 h2 h3
    simp [create_mission_entity_from_dict, MissionLevel.value, h1, h2, h3]
  · rintro s rfl rfl hw ho
    simp [create_mission_entity_from_dict, MissionLevel.value, Step.fromDict,
      postInit, postInitLevel, typeFieldOfOpt, BaseMission.type, BaseMission.scalars,
      MissionPeriodType.fromValue, hw, ho]

/-- C1 witness: the amended theorem applied at the concrete Weekly Mission
mapping `{'level': 'mission', 'type': 'weekly', 'title': 'M'}`. -/
theorem c1_witness :
    ∃ m, create_mission_entity_from_dict ⟨"mission", some "weekly", "M"⟩ = .ok m ∧
      m.regenerationLeft = .int 3 ∧ m.level = .enum .mission ∧ m.type = .enum .weekly :=
  (c1_create_defaults_amended ⟨"mission", some "weekly", "M"⟩).2.2.1 rfl rfl

/-! ## Claim C2 -/

/-- C2 counterexample: for the concrete node `c2node` (status
`NOT_STARTED`, one child with an assigned id) the reconstruction
`from_dict(to_dict(node))` carries `status` as the plain string
`'not started'`, not the enumeration member: `__attrs_post_init__` converts
`level` and `type` back but never `status`, so the round trip is not equal
to the original node in the `status` scalar field. -/
theorem c2_counterexample :
    c2node.status = .enum .notStarted ∧
    ((c2node.to_dict).bind BaseMission.from_dict).map BaseMission.status =
      Except.ok (StatusField.strv "not started") ∧
    StatusField.strv "not started" ≠ StatusField.enum .notStarted := by
  exact ⟨rfl, rfl, by decide⟩

/-- C2 (amended): for every node whose `level`/`status` hold enumeration
members, whose `type` is an enumeration member or None, and whose children
all have assigned ids, `from_dict(to_dict(node))` reconstructs a node equal
to the original in every scalar field except `status`, which comes back as
the plain string value of the original status; the children are replaced by
their id references (and the node's own id is dropped). -/
theorem c2_roundtrip_amended (m : BaseMission) (l : MissionLevel) (st : MissionStatus)
    (hlevel : m.level = .enum l)
    (hstatus : m.status = .enum st)
    (htype : m.type = .null ∨ ∃ t, m.type = .enum t)
    (hsteps : ∀ e ∈ m.steps, ∃ c i, e = Sum.inl c ∧ c.id = some i) :
    ∃ m2, (m.to_dict).bind BaseMission.from_dict = .ok m2 ∧
      m2.title = m.title ∧
      m2.description = m.description ∧
      m2.level = m.level ∧
      m2.type = m.type ∧
      m2.status = .strv st.value ∧
      m2.deadline = m.deadline ∧
      m2.styleId = m.styleId ∧
      m2.ecoPoints = m.ecoPoints ∧
      m2.CO2InKg = m.CO2InKg ∧
      m2.eventId = m.eventId ∧
      m2.regenerationLeft = m.regenerationLeft ∧
      m2.createdTimestamp = m.createdTimestamp ∧
      m2.steps = m.steps.map (fun e => Sum.inr (stepRefId e)) := by
  obtain ⟨sc, steps⟩ := m
  have hids := mapM_stepEntryId_of_inl steps hsteps
  simp only [BaseMission.level, BaseMission.status, BaseMission.type,
    BaseMission.scalars, BaseMission.steps] at hlevel hstatus htype
  rcases htype with hty | ⟨t, hty⟩
  · refine ⟨BaseMission.mk
      { id := none, title := sc.title, level := .enum l, type := .null,
        description := sc.description, status := .strv st.value,
        deadline := sc.deadline, styleId := sc.styleId, ecoPoints := sc.ecoPoints,
        CO2InKg := sc.CO2InKg, eventId := sc.eventId,
        regenerationLeft := sc.regenerationLeft,
        createdTimestamp := sc.createdTimestamp }
      (steps.map (fun e => Sum.inr (stepRefId e))),
      ?_, rfl, rfl, hlevel.symm, hty.symm, rfl, rfl, rfl, rfl, rfl, rfl, rfl, rfl, rfl⟩
    simp only [BaseMission.to_dict, BaseMission.status, BaseMission.type,
      BaseMission.level, BaseMission.scalars, BaseMission.steps,
      BaseMission.title, BaseMission.description, BaseMission.deadline,
      BaseMission.styleId, BaseMission.ecoPoints, BaseMission.CO2InKg,
      BaseMission.eventId, BaseMission.regenerationLeft, BaseMission.createdTimestamp,
      BaseMission.id, hstatus, hty, hlevel]
    rw [hids]
    simp [bind, Except.bind, BaseMission.from_dict, typeFieldOfOpt, postInit,
      postInitLevel, BaseMission.type, BaseMission.level, BaseMission.scalars,
      BaseMission.steps, missionLevel_fromValue_value,
      missionPeriodType_fromValue_value, List.map_map, Function.comp]
  · refine ⟨BaseMission.mk
      { id := none, title := sc.title, level := .enum l, type := .enum t,
        description := sc.description, status := .strv st.value,
        deadline := sc.deadline, styleId := sc.styleId, ecoPoints := sc.ecoPoints,
        CO2InKg := sc.CO2InKg, eventId := sc.eventId,
        regenerationLeft := sc.regenerationLeft,
        createdTimestamp := sc.createdTimestamp }
      (steps.map (fun e => Sum.inr (stepRefId e))),
      ?_, rfl, rfl, hlevel.symm, hty.symm, rfl, rfl, rfl, rfl, rfl, rfl, rfl, rfl, rfl⟩
    simp only [BaseMission.to_dict, BaseMission.status, BaseMission.type,
      BaseMission.level, BaseMission.scalars, BaseMission.steps,
      BaseMission.title, BaseMission.description, BaseMission.deadline,
      BaseMission.styleId, BaseMission.ecoPoints, BaseMission.CO2InKg,
      BaseMission.eventId, BaseMission.regenerationLeft, BaseMission.createdTimestamp,
      BaseMission.id, hstatus, hty, hlevel]
    rw [hids]
    simp [bind, Except.bind, BaseMission.from_dict, typeFieldOfOpt, postInit,
      postInitLevel, BaseMission.type, BaseMission.level, BaseMission.scalars,
      BaseMission.steps, missionLevel_fromValue_value,
      missionPeriodType_fromValue_value, List.map_map, Function.comp]

/-- C2 witness: the amended theorem applied at the concrete node `c2node`. -/
theorem c2_witness :
    ∃ m2, (c2node.to_dict).bind BaseMission.from_dict = .ok m2 ∧
      m2.title = c2node.title ∧
      m2.description = c2node.description ∧
      m2.level = c2node.level ∧
      m2.type = c2node.type ∧
      m2.status = .strv MissionStatus.notStarted.value ∧
      m2.deadline = c2node.deadline ∧
      m2.styleId = c2node.styleId ∧
      m2.ecoPoints = c2node.ecoPoints ∧
      m2.CO2InKg = c2node.CO2InKg ∧
      m2.eventId = c2node.eventId ∧
      m2.regenerationLeft = c2node.regenerationLeft ∧
      m2.createdTimestamp = c2node.createdTimestamp ∧
      m2.steps = c2node.steps.map (fun e => Sum.inr (stepRefId e)) :=
  c2_roundtrip_amended c2node .mission .notStarted rfl rfl
    (Or.inr ⟨.weekly, rfl⟩)
    (by intro e he
        refine ⟨c2child, "s1", ?_, rfl⟩
        simpa [c2node, BaseMission.steps] using he)

/-! ## Claim C5 -/

/-- C5 counterexample: a registered callable that returns the non-string `5`
— `_execute_tool` returns that result unchanged into the conversation
instead of failing with the claimed `ToolResultTypeError`. -/
theorem c5_counterexample :
    execute_tool [("num_tool", fun _ => PyVal.intv 5)] "num_tool" [] =
      Except.ok (PyVal.intv 5) ∧
    (PyVal.intv 5).isStr = false := by
  exact ⟨rfl, rfl⟩

/-- C5 (amended): `_execute_tool` fails with `KeyError` (the spec's
`UnknownTool`) when the name is absent from `tools_dict`, but performs no
result-type check: a registered callable's result is returned as is, string
or not.  The string check lives only inside the registered internet-search
capability, which fails with `ValueError` (the spec's `ToolResultTypeError`)
when the search collaborator's result is not a string and returns the string
otherwise. -/
theorem c5_execute_tool_amended (tools_dict : ToolsDict) (name : String)
    (args : List (String × PyVal)) (quick_search : String → PyVal) (query : String) :
    (tools_dict.lookup name = none →
      execute_tool tools_dict name args = .error (.keyError name)) ∧
    (∀ f, tools_dict.lookup name = some f →
      execute_tool tools_dict name args = .ok (f args)) ∧
    ((quick_search query).isStr = false →
      ∃ msg, internet_search_tool true quick_search query = .error (.valueError msg)) ∧
    (∀ s, quick_search query = .str s →
      internet_search_tool true quick_search query = .ok s) := by
  refine ⟨?_, ?_, ?_, ?_⟩
  · intro h
    simp [execute_tool, h]
  · intro f h
    simp [execute_tool, h]
  · intro h
    cases hq : quick_search query with
    | str s => rw [hq] at h; simp [PyVal.isStr] at h
    | intv n =>
      refine ⟨"Expect search result to be of type str, got " ++ reprStr (PyVal.intv n), ?_⟩
      simp [internet_search_tool, hq]
  · intro s h
    simp [internet_search_tool, h]

/-- C5 witness: the amended theorem applied at a one-entry registry, a
missing name, and a search collaborator that returns the non-string `7`. -/
theorem c5_witness :
    execute_tool [("internet_search_tool", fun _ => PyVal.str "ok")] "absent_tool" [] =
      .error (.keyError "absent_tool") ∧
    ∃ msg, internet_search_tool true (fun _ => PyVal.intv 7) "q" = .error (.valueError msg) := by
  have h := c5_execute_tool_amended [("internet_search_tool", fun _ => PyVal.str "ok")]
    "absent_tool" [] (fun _ => PyVal.intv 7) "q"
  exact ⟨h.1 rfl, h.2.2.1 rfl⟩

/-! ## Claims C4 and C8: conversation driver -/

theorem processParts_spec (tools_dict : ToolsDict) (respParts todo : List GPart)
    (msgs : List GMessage) (avail : Bool) (tr : List DriverEvent)
    (h : ∀ name args, GPart.fnCall name args ∈ todo → (tools_dict.lookup name).isSome) :
    ∃ msgs2, processParts tools_dict respParts todo msgs avail tr =
      .ok (msgs2, avail && !(todo.any GPart.isFnCall), tr ++ callTrace tools_dict todo) := by
  induction todo generalizing msgs avail tr with
  | nil => exact ⟨msgs, by simp [processParts, callTrace]⟩
  | cons p rest ih =>
    cases p with
    | text s =>
      obtain ⟨msgs2, h2⟩ := ih msgs avail tr
        (fun name args hm => h name args (List.mem_cons_of_mem _ hm))
      exact ⟨msgs2, by simpa [processParts, callTrace, GPart.isFnCall] using h2⟩
    | fnResp name r =>
      obtain ⟨msgs2, h2⟩ := ih msgs avail tr
        (fun name args hm => h name args (List.mem_cons_of_mem _ hm))
      exact ⟨msgs2, by simpa [processParts, callTrace, GPart.isFnCall] using h2⟩
    | fnCall name args =>
      have hs := h name args (List.mem_cons_self _ _)
      obtain ⟨f, hf⟩ := Option.isSome_iff_exists.mp hs
      obtain ⟨msgs2, h2⟩ := ih
        (msgs ++ [⟨"model", respParts⟩, ⟨"user", [.fnResp name (f args)]⟩])
        false
        (tr ++ [.toolExec name args (f args), .toolResultAppended name (f args)])
        (fun name args hm => h name args (List.mem_cons_of_mem _ hm))
      refine ⟨msgs2, ?_⟩
      simp only [processParts, execute_tool, hf]
      rw [h2]
      simp [callTrace, hf, GPart.isFnCall]

theorem processParts_no_calls (tools_dict : ToolsDict) (respParts todo : List GPart)
    (msgs : List GMessage) (avail : Bool) (tr : List DriverEvent)
    (h : todo.any GPart.isFnCall = false) :
    processParts tools_dict respParts todo msgs avail tr = .ok (msgs, avail, tr) := by
  induction todo with
  | nil => rfl
  | cons p rest ih =>
    cases p with
    | text s => simpa [processParts] using ih (by simpa [GPart.isFnCall] using h)
    | fnResp n r => simpa [processParts] using ih (by simpa [GPart.isFnCall] using h)
    | fnCall n a => simp [GPart.isFnCall] at h

theorem submitLoop_exhausts (backend : Backend) (tools_dict : ToolsDict)
    (hb : ∀ n msgs, ∃ resp, backend n msgs = .ok resp ∧ resp.parts.any GPart.isFnCall = true)
    (ht : ∀ n msgs resp name args, backend n msgs = .ok resp →
      GPart.fnCall name args ∈ resp.parts → (tools_dict.lookup name).isSome) :
    ∀ k, k ≤ 5 → ∀ msgs subs tr, ∃ tr2,
      submitLoop backend tools_dict msgs (5 - k) subs tr =
        ⟨.error (.runtimeError "Max prompt submission depth of 5 reached."), subs + k, tr2⟩ := by
  intro k
  induction k with
  | zero =>
    intro _ msgs subs tr
    refine ⟨tr, ?_⟩
    rw [submitLoop]
    simp [max_depth]
  | succ k ih =>
    intro hk msgs subs tr
    obtain ⟨resp, hbe, hany⟩ := hb subs msgs
    obtain ⟨msgs2, hpp⟩ := processParts_spec tools_dict resp.parts resp.parts msgs true tr
      (fun name args hm => ht subs msgs resp name args hbe hm)
    have hd : ¬ (5 - (k + 1) + 1 > max_depth) := by simp only [max_depth]; omega
    have hstep : 5 - (k + 1) + 1 = 5 - k := by omega
    obtain ⟨tr2, hrec⟩ := ih (by omega) msgs2 (subs + 1)
      (tr ++ callTrace tools_dict resp.parts)
    have hsum : subs + 1 + k = subs + (k + 1) := by omega
    rw [hsum] at hrec
    refine ⟨tr2, ?_⟩
    rw [submitLoop]
    simp only [dif_neg hd, hbe, hpp, hany]
    simp only [Bool.true_and, Bool.not_true, Bool.false_eq_true, if_false, ite_false]
    rw [hstep]
    exact hrec

/-- C4: against a backend that requests a tool call in every response (with
the requested tools registered, so the conversation can continue),
`_submit_prompt` with its depth bound of 5 makes exactly 5 submissions to
the backend and then fails with the `RuntimeError` "Max prompt submission
depth of 5 reached." (the spec's `ConversationDepthExceeded`) before a 6th
submission is made. -/
theorem c4_depth_bound (backend : Backend) (tools_dict : ToolsDict)
    (hb : ∀ n msgs, ∃ resp, backend n msgs = .ok resp ∧ resp.parts.any GPart.isFnCall = true)
    (ht : ∀ n msgs resp name args, backend n msgs = .ok resp →
      GPart.fnCall name args ∈ resp.parts → (tools_dict.lookup name).isSome)
    (prompt : String) :
    (submit_prompt backend tools_dict prompt).result =
      .error (.runtimeError "Max prompt submission depth of 5 reached.") ∧
    (submit_prompt backend tools_dict prompt).submissions = 5 := by
  obtain ⟨tr2, h⟩ := submitLoop_exhausts backend tools_dict hb ht 5 (le_refl 5)
    [⟨"user", [.text prompt]⟩] 0 []
  rw [show (5 : Nat) - 5 = 0 from rfl] at h
  rw [submit_prompt, h]
  exact ⟨rfl, rfl⟩

/-- C4 witness: the concrete always-tool-calling backend with the one-tool
registry makes exactly 5 submissions and fails with the depth error. -/
theorem c4_witness :
    (submit_prompt alwaysToolBackend oneTool "generate").result =
      .error (.runtimeError "Max prompt submission depth of 5 reached.") ∧
    (submit_prompt alwaysToolBackend oneTool "generate").submissions = 5 := by
  refine c4_depth_bound alwaysToolBackend oneTool ?_ ?_ "generate"
  · intro n msgs
    exact ⟨⟨[.fnCall "internet_search_tool" []]⟩, rfl, rfl⟩
  · intro n msgs resp name args hbe hm
    have : resp = ⟨[.fnCall "internet_search_tool" []]⟩ := by
      simpa [alwaysToolBackend] using hbe.symm
    subst this
    simp at hm
    obtain ⟨h1, -⟩ := hm
    subst h1
    rfl

/-- C8: (a) a backend response without tool-call parts completes the driver
in a single submission, returning the response's text with no tool events;
(b) the part-processing loop executes the tool calls of a response in the
order they appear and appends each tool's result to the history immediately
after its execution and before the next call is executed: its event trace is
exactly the in-order interleaving `callTrace`. -/
theorem c8_tool_call_ordering :
    (∀ (backend : Backend) (tools_dict : ToolsDict) (prompt : String) (resp : GResponse),
      backend 0 [⟨"user", [.text prompt]⟩] = .ok resp →
      resp.parts.any GPart.isFnCall = false →
      submit_prompt backend tools_dict prompt = ⟨.ok resp.text, 1, []⟩) ∧
    (∀ (tools_dict : ToolsDict) (respParts todo : List GPart) (msgs : List GMessage)
       (avail : Bool) (tr : List DriverEvent),
      (∀ name args, GPart.fnCall name args ∈ todo → (tools_dict.lookup name).isSome) →
      ∃ msgs2 avail2, processParts tools_dict respParts todo msgs avail tr =
        .ok (msgs2, avail2, tr ++ callTrace tools_dict todo)) := by
  constructor
  · intro backend tools_dict prompt resp hbe hno
    rw [submit_prompt, submitLoop]
    have hd : ¬ (0 + 1 > max_depth) := by simp only [max_depth]; omega
    rw [dif_neg hd, hbe]
    simp [processParts_no_calls tools_dict resp.parts resp.parts
      [⟨"user", [.text prompt]⟩] true [] hno]
  · intro tools_dict respParts todo msgs avail tr h
    obtain ⟨msgs2, h2⟩ := processParts_spec tools_dict respParts todo msgs avail tr h
    exact ⟨msgs2, _, h2⟩

/-- C8 witness: part (a) at the concrete text-only backend (one submission,
text returned, no events) and part (b) at a concrete two-call response. -/
theorem c8_witness :
    submit_prompt textBackend oneTool "p" =
      ⟨.ok (GResponse.text ⟨[.text "hello ", .text "world"]⟩), 1, []⟩ ∧
    ∃ msgs2 avail2, processParts oneTool
        [.fnCall "internet_search_tool" [("query", .str "a")], .fnCall "internet_search_tool" []]
        [.fnCall "internet_search_tool" [("query", .str "a")], .fnCall "internet_search_tool" []]
        [] true [] =
      .ok (msgs2, avail2,
        [] ++ callTrace oneTool
          [.fnCall "internet_search_tool" [("query", .str "a")], .fnCall "internet_search_tool" []]) := by
  constructor
  · exact c8_tool_call_ordering.1 textBackend oneTool "p" ⟨[.text "hello ", .text "world"]⟩ rfl rfl
  · refine c8_tool_call_ordering.2 oneTool _ _ [] true [] ?_
    intro name args hm
    simp at hm
    rcases hm with ⟨h1, -⟩ | ⟨h1, -⟩ <;> subst h1 <;> rfl

/-! ## Claim C3 -/

theorem genLoop_all_fail (genStr : Nat → String) :
    ∀ (remaining attempt : Nat),
      (∀ i, attempt + 1 ≤ i → i ≤ attempt + remaining →
        ∃ m, parseMissions (genStr i) = .error (.syn m)) →
      genLoop genStr remaining attempt = (.ok none, attempt + remaining) := by
  intro remaining
  induction remaining with
  | zero => intro attempt _; simp [genLoop]
  | succ r ih =>
    intro attempt h
    obtain ⟨m, hm⟩ := h (attempt + 1) (le_refl _) (by omega)
    have hrest := ih (attempt + 1) (fun i h1 h2 => h i (by omega) (by omega))
    rw [genLoop, hm, hrest]
    have : attempt + 1 + r = attempt + (r + 1) := by omega
    rw [this]

/-- C3: when `_parse_missions` fails with `json.decoder.JSONDecodeError` (the
spec's `MalformedResponse`) on the text of every attempt,
`get_new_missions_for_user` makes exactly `attempt_max` attempts, persists
nothing to the storage collaborator, and propagates the exhaustion failure
(the `UnboundLocalError` raised by iterating the never-assigned `missions` —
the code's realization of the spec's `GenerationExhausted`) instead of
returning an empty result. -/
theorem c3_generation_exhausted (genStr : Nat → String) (mt : MissionPeriodType)
    (attempt_max : Nat)
    (h : ∀ i, 1 ≤ i → i ≤ attempt_max → ∃ m, parseMissions (genStr i) = .error (.syn m)) :
    get_new_missions_for_user genStr mt attempt_max =
      ⟨.error .generationExhausted, [], attempt_max⟩ := by
  have hloop := genLoop_all_fail genStr attempt_max 0
    (fun i h1 h2 => h i (by omega) (by omega))
  rw [get_new_missions_for_user, hloop]
  simp

/-- C3 witness: the orchestrator driven by a backend whose text never parses,
with `attempt_max = 3`: three attempts, exhaustion failure, nothing
persisted. -/
theorem c3_witness :
    get_new_missions_for_user badGen .weekly 3 =
      ⟨.error .generationExhausted, [], 3⟩ :=
  c3_generation_exhausted badGen .weekly 3
    (fun _ _ _ => ⟨"Expecting value", rfl⟩)

/-! ## Claim C7 -/

theorem occursIn_fence_eq_false (T : List Char) (h : '`' ∉ T) :
    occursIn fenceJson T = false := by
  induction T with
  | nil => rfl
  | cons c rest ih =>
    have hc : ('`' == c) = false :=
      beq_eq_false_iff_ne.mpr fun he => h (he ▸ List.mem_cons_self c rest)
    have hrest := ih fun hm => h (List.mem_cons_of_mem c hm)
    have hpre : fenceJson.isPrefixOf (c :: rest) = false := by
      simp [fenceJson, List.isPrefixOf, hc]
    simp [occursIn, hpre, hrest]

theorem isPrefixOf_append_self (pat s : List Char) : pat.isPrefixOf (pat ++ s) = true := by
  induction pat with
  | nil => simp [List.isPrefixOf]
  | cons c rest ih => simp [List.isPrefixOf, ih]

theorem occursIn_append_self (pat X : List Char) : occursIn pat (pat ++ X) = true := by
  cases hp : pat ++ X with
  | nil => simp [occursIn, List.append_eq_nil.mp hp]
  | cons c rest =>
    rw [occursIn, ← hp, isPrefixOf_append_self]
    rfl

theorem replaceFuel_fence_append_tick3 (T : List Char) :
    ∀ (fuel : Nat), '`' ∉ T → T.length + 3 ≤ fuel →
      replaceFuel fenceJson fuel (T ++ tick3) = T ++ tick3 := by
  induction T with
  | nil =>
    intro fuel _ hf
    obtain ⟨f, rfl⟩ : ∃ f, fuel = f + 3 := ⟨fuel - 3, by omega⟩
    have h1 : fenceJson.isPrefixOf ('`' :: '`' :: '`' :: ([] : List Char)) = false := by decide
    have h2 : fenceJson.isPrefixOf ('`' :: '`' :: ([] : List Char)) = false := by decide
    have h3 : fenceJson.isPrefixOf ('`' :: ([] : List Char)) = false := by decide
    show replaceFuel fenceJson (f + 3) ('`' :: '`' :: '`' :: []) = '`' :: '`' :: '`' :: []
    rw [replaceFuel, if_neg (by simp [h1])]
    rw [replaceFuel, if_neg (by simp [h2])]
    rw [replaceFuel, if_neg (by simp [h3])]
    rw [replaceFuel]
  | cons c rest ih =>
    intro fuel hmem hf
    have hc : ('`' == c) = false :=
      beq_eq_false_iff_ne.mpr fun he => hmem (he ▸ List.mem_cons_self c rest)
    obtain ⟨f, rfl⟩ : ∃ f, fuel = f + 1 := ⟨fuel - 1, by omega⟩
    have hpre : fenceJson.isPrefixOf (c :: (rest ++ tick3)) = false := by
      simp [fenceJson, List.isPrefixOf, hc]
    show replaceFuel fenceJson (f + 1) (c :: (rest ++ tick3)) = c :: (rest ++ tick3)
    rw [replaceFuel, if_neg (by simp [hpre])]
    rw [ih f (fun hm => hmem (List.mem_cons_of_mem c hm)) (by simp at hf; omega)]

theorem replaceFuel_tick3_append_tick3 (T : List Char) :
    ∀ (fuel : Nat), '`' ∉ T → T.length + 3 ≤ fuel →
      replaceFuel tick3 fuel (T ++ tick3) = T := by
  induction T with
  | nil =>
    intro fuel _ hf
    obtain ⟨f, rfl⟩ : ∃ f, fuel = f + 1 := ⟨fuel - 1, by omega⟩
    have h1 : tick3.isPrefixOf ('`' :: '`' :: '`' :: ([] : List Char)) = true := by decide
    show replaceFuel tick3 (f + 1) ('`' :: '`' :: '`' :: []) = []
    rw [replaceFuel, if_pos (by simp [h1])]
    simp [replaceFuel, tick3]
  | cons c rest ih =>
    intro fuel hmem hf
    have hc : ('`' == c) = false :=
      beq_eq_false_iff_ne.mpr fun he => hmem (he ▸ List.mem_cons_self c rest)
    obtain ⟨f, rfl⟩ : ∃ f, fuel = f + 1 := ⟨fuel - 1, by omega⟩
    have hpre : tick3.isPrefixOf (c :: (rest ++ tick3)) = false := by
      simp [tick3, List.isPrefixOf, hc]
    show replaceFuel tick3 (f + 1) (c :: (rest ++ tick3)) = c :: rest
    rw [replaceFuel, if_neg (by simp [hpre])]
    rw [ih f (fun hm => hmem (List.mem_cons_of_mem c hm)) (by simp at hf; omega)]

/-- C7 counterexample: for the raw text `"x```y"` (a JSON string containing a
bare triple-backtick), `_parse_missions` decodes the text itself to the
string `x```y`, but decodes the fence-wrapped text to `xy`: the wrapped form
strips the backticks inside the payload as well, so the two results differ. -/
theorem c7_counterexample :
    parseMissions "\"x```y\"" = .ok (.str "x```y") ∧
    parseMissions ("```json" ++ "\"x```y\"" ++ "```") = .ok (.str "xy") ∧
    PyObj.str "x```y" ≠ PyObj.str "xy" := by
  refine ⟨rfl, rfl, ?_⟩
  intro h
  injection h with h2
  exact absurd h2 (by decide)

/-- C7 (amended): for every raw text containing no backtick character,
`_parse_missions` applied to the text wrapped in the fenced-code-block
artifact (leading ```json marker, trailing ``` marker) yields the same
result as `_parse_missions` applied to the text alone.  A text containing a
bare ``` outside the marker refutes the unrestricted claim, since the strip
removes all marker occurrences, not just the outer ones. -/
theorem c7_fence_wrap_invariant (T : List Char) (h : '`' ∉ T) :
    parseMissionsL (fenceJson ++ T ++ tick3) = parseMissionsL T := by
  have hocc : occursIn fenceJson T = false := occursIn_fence_eq_false T h
  have hoccW : occursIn fenceJson (fenceJson ++ (T ++ tick3)) = true :=
    occursIn_append_self fenceJson (T ++ tick3)
  have hst1 : pyReplace fenceJson (fenceJson ++ (T ++ tick3)) = T ++ tick3 := by
    have hlen : (fenceJson ++ (T ++ tick3)).length = (T.length + 9) + 1 := by
      simp [fenceJson, tick3]
    rw [pyReplace, hlen]
    show replaceFuel fenceJson (T.length + 9 + 1)
      ('`' :: '`' :: '`' :: 'j' :: 's' :: 'o' :: 'n' :: (T ++ tick3)) = T ++ tick3
    have hpre : fenceJson.isPrefixOf
        ('`' :: '`' :: '`' :: 'j' :: 's' :: 'o' :: 'n' :: (T ++ tick3)) = true :=
      isPrefixOf_append_self fenceJson (T ++ tick3)
    rw [replaceFuel, if_pos hpre]
    show replaceFuel fenceJson (T.length + 9) (T ++ tick3) = T ++ tick3
    exact replaceFuel_fence_append_tick3 T (T.length + 9) h (by omega)
  have hst2 : pyReplace tick3 (T ++ tick3) = T := by
    rw [pyReplace]
    exact replaceFuel_tick3_append_tick3 T (T ++ tick3).length h (by simp [tick3])
  rw [parseMissionsL, parseMissionsL, List.append_assoc]
  rw [hoccW, hocc]
  simp only [ite_true, ite_false, Bool.false_eq_true, if_true, if_false]
  rw [hst1, hst2]

/-- C7 witness: the amended theorem applied at the backtick-free payload
`[1]`. -/
theorem c7_witness :
    parseMissionsL (fenceJson ++ "[1]".toList ++ tick3) = parseMissionsL "[1]".toList :=
  c7_fence_wrap_invariant "[1]".toList (by decide)

/-! ## Claim C6 -/

/-- C6 counterexample: the text `[{"status": "bogus"}` is not syntactically
valid JSON (the plain decode fails with a `JSONDecodeError`), yet
`_parse_missions` raises the entity-validation failure `UnknownEnumValue`
instead of `MalformedResponse`: the `object_hook` runs on the completed
inner object before the decoder reaches the syntax error of the
unterminated array. -/
theorem c6_counterexample :
    isMalformedResponse (pureLoads "[\x7b\"status\": \"bogus\"\x7d".toList) = true ∧
    parseMissions "[\x7b\"status\": \"bogus\"\x7d" =
      .error (.hook (.unknownEnumValue "bogus")) ∧
    isMalformedResponse (parseMissions "[\x7b\"status\": \"bogus\"\x7d") = false := by
  exact ⟨rfl, rfl, rfl⟩

theorem parseVal_hook_irrelevant (h1 h2 : Hook) (fuel : Nat) (l : List Char)
    (hbrace : '\x7b' ∉ l) (hbrack : '[' ∉ l) :
    parseVal h1 fuel l = parseVal h2 fuel l := by
  cases fuel with
  | zero => rfl
  | succ fuel =>
    cases hsk : skipWs l with
    | nil => simp only [parseVal, hsk]
    | cons c rest =>
      have hcin : c ∈ l := by
        have hsub : List.Sublist (skipWs l) l :=
          (List.dropWhile_suffix isJsonWs).sublist
        exact hsub.subset (hsk ▸ List.mem_cons_self c rest)
      have hcb : ¬ c = '\x7b' := fun he => hbrace (he ▸ hcin)
      have hck : ¬ c = '[' := fun he => hbrack (he ▸ hcin)
      by_cases hq : c = '"'
      · simp only [parseVal, hsk, if_pos hq]
      · simp only [parseVal, hsk, if_neg hq, if_neg hcb, if_neg hck]

theorem jsonLoadsWith_hook_irrelevant (h1 h2 : Hook) (l : List Char)
    (hbrace : '\x7b' ∉ l) (hbrack : '[' ∉ l) :
    jsonLoadsWith h1 l = jsonLoadsWith h2 l := by
  rw [jsonLoadsWith, jsonLoadsWith,
    parseVal_hook_irrelevant h1 h2 (jsonFuel l) l hbrace hbrack]

/-- C6 (amended): on texts free of the fence marker and of object and array
literals, `_parse_missions` behaves exactly like the plain JSON decode; in
particular, on every such text that is not syntactically valid it fails with
the decoder's `JSONDecodeError` (the spec's `MalformedResponse`).  The
unrestricted claim fails: when the invalid text embeds a completed object on
which `Mission.from_dict` raises, that entity-validation error propagates
instead of `MalformedResponse`, because the hook runs during decoding. -/
theorem c6_malformed_response_amended (s : String)
    (htick : '`' ∉ s.toList) (hbrace : '\x7b' ∉ s.toList) (hbrack : '[' ∉ s.toList)
    (hinv : isMalformedResponse (pureLoads s.toList) = true) :
    parseMissions s = pureLoads s.toList ∧
    isMalformedResponse (parseMissions s) = true := by
  have hocc : occursIn fenceJson s.toList = false := occursIn_fence_eq_false s.toList htick
  have heq : parseMissions s = pureLoads s.toList := by
    rw [parseMissions, parseMissionsL, hocc]
    simp only [Bool.false_eq_true, ite_false, if_false]
    exact jsonLoadsWith_hook_irrelevant missionHook trivHook s.toList hbrace hbrack
  exact ⟨heq, heq ▸ hinv⟩

/-- C6 witness: the amended theorem applied at the syntactically invalid,
hook-free text `1,2`. -/
theorem c6_witness :
    parseMissions "1,2" = pureLoads "1,2".toList ∧
    isMalformedResponse (parseMissions "1,2") = true :=
  c6_malformed_response_amended "1,2" (by decide) (by decide) (by decide) rfl
